/-
Verification of the TransferPlaylistV2 playlist-migration engine.

Shallow embedding of the Python sources:
  * TransferME/async_search.py  (fuzzy matcher, async track resolvers, cache, progress)
  * TransferME/soundcloud.py    (synchronous SoundCloud resolver with 401 refresh)
  * token_manager.py            (per-session token store)
  * rate_limiting.py            (sliding-window plus token-bucket rate limiter)
  * TransferME/main.py          (batch transfer orchestrator and progress state)

Python strings are modelled as `List Char` (ASCII model: the regex class \w is
modelled by `Char.isAlphanum` or underscore, \s by `Char.isWhitespace`, and
str.lower by `Char.toLower`).  Python floats are modelled as `Rat`; the Python
`int()` truncation is `pyInt`.  Wall-clock timestamps are rationals.
-/
import Mathlib

namespace TransferPlaylist

/-! ### Character model -/

/-- Model of the Python regex class `\w` (ASCII fragment): alphanumeric or underscore. -/
def isWordCharM (c : Char) : Bool := c.isAlphanum || c == '_'

/-- Model of the Python regex class `\s`: whitespace. -/
def isWsM (c : Char) : Bool := c.isWhitespace

lemma isWordCharM_not_ws {c : Char} (h : isWordCharM c = true) : isWsM c = false := by
  cases hw : isWsM c with
  | false => rfl
  | true =>
    exfalso
    have : ((c = ' ' ∨ c = '\t') ∨ c = '\r') ∨ c = '\n' := by
      simpa [isWsM, Char.isWhitespace] using hw
    rcases this with ((h1 | h1) | h1) | h1 <;> subst h1 <;> simp [isWordCharM] at h

lemma isWordCharM_space : isWordCharM ' ' = false := by decide

lemma isWsM_space : isWsM ' ' = true := by decide

/-- `Char.toLower` is idempotent (it only moves the basic latin range 65–90 to 97–122). -/
lemma toLower_idem (c : Char) : c.toLower.toLower = c.toLower := by
  by_cases h : 65 ≤ c.toNat ∧ c.toNat ≤ 90
  · have h1 : c.toLower = Char.ofNat (c.toNat + 32) := by
      simp [Char.toLower, h]
    rw [h1]
    obtain ⟨n, hn⟩ : ∃ n, c.toNat = n := ⟨_, rfl⟩
    rw [hn]
    have hb1 : 65 ≤ n := hn ▸ h.1
    have hb2 : n ≤ 90 := hn ▸ h.2
    interval_cases n <;> decide
  · have h1 : c.toLower = c := by
      simp [Char.toLower, h]
    rw [h1, h1]

lemma toLower_space : Char.toLower ' ' = ' ' := by decide

/-! ### Whitespace splitting and joining

`splitWs` models Python `str.split()`: the list of maximal runs of
non-whitespace characters.  `joinWords` glues words back with single spaces.
`joinWords (splitWs s)` models `re.sub(r"\s+", " ", s).strip()` from the
source (each maximal whitespace run becomes one space, then the ends are
stripped). -/

/-- Push a pending run onto a word list, discarding an empty run. -/
def pushRun (r : List Char) (ws : List (List Char)) : List (List Char) :=
  if r.isEmpty then ws else r :: ws

/-- One step (from the right) of whitespace splitting: the state is the word
currently being read together with the completed words to the right. -/
def wordsStep (c : Char) (p : List Char × List (List Char)) :
    List Char × List (List Char) :=
  if isWsM c then ([], pushRun p.1 p.2) else (c :: p.1, p.2)

def wordsFold (l : List Char) : List Char × List (List Char) :=
  l.foldr wordsStep ([], [])

/-- Maximal runs of non-whitespace characters, in order (Python `str.split()`). -/
def splitWs (l : List Char) : List (List Char) :=
  pushRun (wordsFold l).1 (wordsFold l).2

/-- Join words with single spaces (no leading or trailing space). -/
def joinWords : List (List Char) → List Char
  | [] => []
  | [w] => w
  | w :: ws => w ++ ' ' :: joinWords ws

/-- Model of `re.sub(r"\s+", " ", s).strip()`. -/
def collapseWs (l : List Char) : List Char := joinWords (splitWs l)

/-! ### Stoplist removal

Models `re.sub(r"\b(slowed|reverb|remix|edit|radio|version|feat|ft)\b", "", s)`.
A substring flanked by the word boundary `\b` on both sides is exactly a
maximal run of word characters, so the substitution deletes every maximal
word-character run equal to a stoplist word, keeping everything else
(in particular the spaces around a deleted word stay in place). -/

def stopWords : List (List Char) :=
  ["slowed".toList, "reverb".toList, "remix".toList, "edit".toList,
   "radio".toList, "feat".toList, "ft".toList, "version".toList]

/-- Delete a run if it is a stoplist word. -/
def dropStop (r : List Char) : List Char :=
  if stopWords.contains r then [] else r

/-- One step (from the right) of stoplist removal: the state is the maximal
word-character run starting immediately to the right together with the already
rewritten remainder after that run. -/
def stopStep (c : Char) (p : List Char × List Char) : List Char × List Char :=
  if isWordCharM c then (c :: p.1, p.2) else ([], c :: (dropStop p.1 ++ p.2))

def stopFold (l : List Char) : List Char × List Char :=
  l.foldr stopStep ([], [])

/-- Remove every maximal word-character run that equals a stoplist word. -/
def removeStop (l : List Char) : List Char :=
  dropStop (stopFold l).1 ++ (stopFold l).2

/-! ### The fuzzy matcher (`_normalize_string` in async_search.py, `_norm`
in soundcloud.py — the two are textually identical) -/

/-- `s.lower()` (ASCII model). -/
def lowerStr (l : List Char) : List Char := l.map Char.toLower

/-- Pointwise model of `re.sub(r"[^\w\s]", " ", s)`. -/
def punctToSpace (c : Char) : Char :=
  if isWordCharM c || isWsM c then c else ' '

def stripPunct (l : List Char) : List Char := l.map punctToSpace

/-- `_normalize_string` / `_norm`: lowercase, punctuation to spaces, collapse
whitespace and strip, then remove stoplist words. -/
def normalizeStr (l : List Char) : List Char :=
  removeStop (collapseWs (stripPunct (lowerStr l)))

/-! ### Structural lemmas about the tokenizer and the stoplist rewriter -/

lemma map_fixed {α : Type} {f : α → α} : ∀ {l : List α}, (∀ a ∈ l, f a = a) → l.map f = l
  | [], _ => rfl
  | a :: l, h => by
    simp only [List.map_cons, h a (by simp)]
    rw [map_fixed fun b hb => h b (by simp [hb])]

lemma pushRun_mem {r w : List Char} {ws : List (List Char)}
    (h : w ∈ pushRun r ws) : w = r ∨ w ∈ ws := by
  by_cases hr : r.isEmpty <;> simp [pushRun, hr] at h <;> tauto

lemma stopFold_append_word : ∀ (w l : List Char), (∀ c ∈ w, isWordCharM c = true) →
    stopFold (w ++ l) = (w ++ (stopFold l).1, (stopFold l).2)
  | [], l, _ => by simp [stopFold]
  | c :: w, l, h => by
    have hc : isWordCharM c = true := h c (by simp)
    have ih := stopFold_append_word w l fun d hd => h d (by simp [hd])
    show stopStep c (stopFold (w ++ l)) = _
    rw [ih]
    simp [stopStep, hc]

lemma stopFold_space (l : List Char) :
    stopFold (' ' :: l) = ([], ' ' :: removeStop l) := by
  show stopStep ' ' (stopFold l) = _
  simp [stopStep, isWordCharM_space, removeStop]

lemma removeStop_joinWords : ∀ (ws : List (List Char)),
    (∀ w ∈ ws, ∀ c ∈ w, isWordCharM c = true) →
    removeStop (joinWords ws) = joinWords (ws.map dropStop)
  | [], _ => rfl
  | [w], h => by
    have h1 : stopFold w = (w, []) := by
      have := stopFold_append_word w [] (h w (by simp))
      simpa [stopFold] using this
    simp [removeStop, h1, joinWords]
  | w :: x :: ws, h => by
    have ih := removeStop_joinWords (x :: ws) fun v hv => h v (by simp at hv ⊢; tauto)
    have hj : joinWords (w :: x :: ws) = w ++ ' ' :: joinWords (x :: ws) := rfl
    have h1 : stopFold (w ++ ' ' :: joinWords (x :: ws))
        = (w, ' ' :: removeStop (joinWords (x :: ws))) := by
      rw [stopFold_append_word w _ (h w (by simp)), stopFold_space]
      simp
    have h2 : joinWords (List.map dropStop (w :: x :: ws))
        = dropStop w ++ ' ' :: joinWords (List.map dropStop (x :: ws)) := by
      simp only [List.map_cons]
      rfl
    rw [hj]
    calc removeStop (w ++ ' ' :: joinWords (x :: ws))
        = dropStop (stopFold (w ++ ' ' :: joinWords (x :: ws))).1
            ++ (stopFold (w ++ ' ' :: joinWords (x :: ws))).2 := rfl
      _ = dropStop w ++ ' ' :: removeStop (joinWords (x :: ws)) := by rw [h1]
      _ = dropStop w ++ ' ' :: joinWords (List.map dropStop (x :: ws)) := by rw [ih]
      _ = joinWords (List.map dropStop (w :: x :: ws)) := h2.symm

lemma wordsFold_append_nonws : ∀ (y l : List Char), (∀ c ∈ y, isWsM c = false) →
    wordsFold (y ++ l) = (y ++ (wordsFold l).1, (wordsFold l).2)
  | [], l, _ => by simp [wordsFold]
  | c :: y, l, h => by
    have hc : isWsM c = false := h c (by simp)
    have ih := wordsFold_append_nonws y l fun d hd => h d (by simp [hd])
    show wordsStep c (wordsFold (y ++ l)) = _
    rw [ih]
    simp [wordsStep, hc]

lemma wordsFold_space (l : List Char) :
    wordsFold (' ' :: l) = ([], splitWs l) := by
  show wordsStep ' ' (wordsFold l) = _
  simp [wordsStep, isWsM_space, splitWs]

lemma splitWs_joinWords : ∀ (ys : List (List Char)),
    (∀ y ∈ ys, ∀ c ∈ y, isWsM c = false) →
    splitWs (joinWords ys) = ys.filter (fun y => !y.isEmpty)
  | [], _ => rfl
  | [y], h => by
    have h1 : wordsFold y = (y, []) := by
      have := wordsFold_append_nonws y [] (h y (by simp))
      simpa [wordsFold] using this
    by_cases hy : y.isEmpty <;>
      simp [joinWords, splitWs, h1, pushRun, hy, List.filter]
  | y :: x :: ys, h => by
    have ih := splitWs_joinWords (x :: ys) fun v hv => h v (by simp at hv ⊢; tauto)
    have hj : joinWords (y :: x :: ys) = y ++ ' ' :: joinWords (x :: ys) := rfl
    have h1 : wordsFold (y ++ ' ' :: joinWords (x :: ys))
        = (y, splitWs (joinWords (x :: ys))) := by
      rw [wordsFold_append_nonws y _ (h y (by simp)), wordsFold_space]
      simp
    have h2 : splitWs (y ++ ' ' :: joinWords (x :: ys))
        = pushRun y (splitWs (joinWords (x :: ys))) := by
      show pushRun (wordsFold _).1 (wordsFold _).2 = _
      rw [h1]
    rw [hj, h2, ih]
    by_cases hy : y.isEmpty <;> simp [pushRun, hy, List.filter_cons]

lemma wordsFold_chars : ∀ (l : List Char),
    (∀ c ∈ (wordsFold l).1, isWsM c = false ∧ c ∈ l) ∧
    (∀ w ∈ (wordsFold l).2, ∀ c ∈ w, isWsM c = false ∧ c ∈ l)
  | [] => by simp [wordsFold]
  | a :: l => by
    have ih := wordsFold_chars l
    show (∀ c ∈ (wordsStep a (wordsFold l)).1, _) ∧ (∀ w ∈ (wordsStep a (wordsFold l)).2, _)
    by_cases ha : isWsM a = true
    · constructor
      · intro c hc
        simp [wordsStep, ha] at hc
      · intro w hw c hc
        simp only [wordsStep, ha, if_pos] at hw
        rcases pushRun_mem hw with h1 | h1
        · subst h1
          have := ih.1 c hc
          exact ⟨this.1, by simp [this.2]⟩
        · have := ih.2 w h1 c hc
          exact ⟨this.1, by simp [this.2]⟩
    · constructor
      · intro c hc
        simp only [wordsStep, if_neg ha] at hc
        rcases List.mem_cons.mp hc with h1 | h1
        · subst h1
          exact ⟨by simpa using ha, by simp⟩
        · have := ih.1 c h1
          exact ⟨this.1, by simp [this.2]⟩
      · intro w hw c hc
        simp only [wordsStep, if_neg ha] at hw
        have := ih.2 w hw c hc
        exact ⟨this.1, by simp [this.2]⟩

lemma splitWs_chars {l : List Char} {w : List Char} (hw : w ∈ splitWs l) :
    ∀ c ∈ w, isWsM c = false ∧ c ∈ l := by
  intro c hc
  rcases pushRun_mem hw with h1 | h1
  · subst h1
    exact (wordsFold_chars l).1 c hc
  · exact (wordsFold_chars l).2 w h1 c hc

lemma joinWords_chars : ∀ (ws : List (List Char)), ∀ c ∈ joinWords ws,
    (∃ w ∈ ws, c ∈ w) ∨ c = ' '
  | [], c, hc => by simp [joinWords] at hc
  | [w], c, hc => by
    exact Or.inl ⟨w, by simp, by simpa [joinWords] using hc⟩
  | w :: x :: ws, c, hc => by
    have hj : joinWords (w :: x :: ws) = w ++ ' ' :: joinWords (x :: ws) := rfl
    rw [hj] at hc
    rcases List.mem_append.mp hc with h1 | h1
    · exact Or.inl ⟨w, by simp, h1⟩
    · rcases List.mem_cons.mp h1 with h2 | h2
      · exact Or.inr h2
      · rcases joinWords_chars (x :: ws) c h2 with ⟨v, hv, hcv⟩ | h3
        · exact Or.inl ⟨v, by simp at hv ⊢; tauto, hcv⟩
        · exact Or.inr h3

lemma dropStop_sub {r : List Char} : ∀ c ∈ dropStop r, c ∈ r := by
  intro c hc
  by_cases h : stopWords.contains r <;> simp [dropStop, h] at hc <;> tauto

lemma stripPunct_chars {l : List Char} : ∀ c ∈ stripPunct l, (isWordCharM c || isWsM c) = true := by
  intro c hc
  rcases List.mem_map.mp hc with ⟨d, _, hd⟩
  by_cases h : (isWordCharM d || isWsM d) = true
  · rw [← hd]; simp [punctToSpace, h]
  · have : c = ' ' := by rw [← hd]; simp [punctToSpace, h]
    subst this
    simp [isWsM_space]

lemma stripPunct_lower_chars {l : List Char} :
    ∀ c ∈ stripPunct (lowerStr l), c.toLower = c := by
  intro c hc
  rcases List.mem_map.mp hc with ⟨d, hdl, hd⟩
  rcases List.mem_map.mp hdl with ⟨e, _, he⟩
  by_cases h : (isWordCharM d || isWsM d) = true
  · have : c = d := by rw [← hd]; simp [punctToSpace, h]
    subst this
    rw [← he]
    exact toLower_idem e
  · have : c = ' ' := by rw [← hd]; simp [punctToSpace, h]
    subst this
    exact toLower_space

/-- `normalizeStr` rewrites to: split the cleaned string into words, delete the
stoplist words (leaving their separating spaces), join back. -/
lemma normalizeStr_eq (l : List Char) :
    normalizeStr l
      = joinWords ((splitWs (stripPunct (lowerStr l))).map dropStop) := by
  unfold normalizeStr collapseWs
  apply removeStop_joinWords
  intro w hw c hc
  have h1 := splitWs_chars hw c hc
  have h2 := stripPunct_chars c h1.2
  rcases Bool.or_eq_true_iff.mp h2 with h3 | h3
  · exact h3
  · rw [h1.1] at h3
    cases h3

/-! ### The fixed point of double normalization -/

/-- The runs a doubly-normalized string consists of: non-empty, unaffected by
stoplist deletion, made of lower-case-fixed word characters. -/
def goodRuns (ws : List (List Char)) : Prop :=
  ∀ w ∈ ws, w.isEmpty = false ∧ dropStop w = w ∧
    ∀ c ∈ w, isWordCharM c = true ∧ c.toLower = c

lemma dropStop_idem_of_ne {r : List Char} (hne : (dropStop r).isEmpty = false) :
    dropStop (dropStop r) = dropStop r := by
  by_cases hstop : stopWords.contains r
  · exfalso
    rw [dropStop, if_pos hstop] at hne
    simp at hne
  · have h1 : dropStop r = r := by rw [dropStop, if_neg hstop]
    rw [h1]
    exact h1

lemma lowerStr_joinWords_fixed {ws : List (List Char)}
    (h : ∀ w ∈ ws, ∀ c ∈ w, c.toLower = c) :
    lowerStr (joinWords ws) = joinWords ws := by
  apply map_fixed
  intro c hc
  rcases joinWords_chars ws c hc with ⟨w, hw, hcw⟩ | h1
  · exact h w hw c hcw
  · subst h1; exact toLower_space

lemma stripPunct_joinWords_fixed {ws : List (List Char)}
    (h : ∀ w ∈ ws, ∀ c ∈ w, isWordCharM c = true) :
    stripPunct (joinWords ws) = joinWords ws := by
  apply map_fixed
  intro c hc
  rcases joinWords_chars ws c hc with ⟨w, hw, hcw⟩ | h1
  · simp [punctToSpace, h w hw c hcw]
  · subst h1; simp [punctToSpace, isWsM_space]

/-- `normalizeStr` is the identity on a string joined from good runs. -/
lemma normalizeStr_joinWords_good {ws : List (List Char)} (h : goodRuns ws) :
    normalizeStr (joinWords ws) = joinWords ws := by
  have hword : ∀ w ∈ ws, ∀ c ∈ w, isWordCharM c = true :=
    fun w hw c hc => ((h w hw).2.2 c hc).1
  have hlow : ∀ w ∈ ws, ∀ c ∈ w, c.toLower = c :=
    fun w hw c hc => ((h w hw).2.2 c hc).2
  have hnws : ∀ w ∈ ws, ∀ c ∈ w, isWsM c = false :=
    fun w hw c hc => isWordCharM_not_ws (hword w hw c hc)
  rw [normalizeStr_eq, lowerStr_joinWords_fixed hlow, stripPunct_joinWords_fixed hword,
    splitWs_joinWords ws hnws]
  have hf : ws.filter (fun y => !y.isEmpty) = ws :=
    List.filter_eq_self.mpr (fun a ha => by simp [(h a ha).1])
  rw [hf, map_fixed (fun w hw => (h w hw).2.1)]

/-- Applying `normalizeStr` twice always lands on a string joined from good runs. -/
lemma normalizeStr_normalizeStr_good (l : List Char) :
    ∃ ws, goodRuns ws ∧ normalizeStr (normalizeStr l) = joinWords ws := by
  have hrs_chars : ∀ w ∈ (splitWs (stripPunct (lowerStr l))).map dropStop, ∀ c ∈ w,
      isWordCharM c = true ∧ c.toLower = c ∧ isWsM c = false := by
    intro w hw c hc
    rcases List.mem_map.mp hw with ⟨r, hr, hwr⟩
    have hcr : c ∈ r := dropStop_sub c (hwr ▸ hc)
    have h1 := splitWs_chars hr c hcr
    have h2 := stripPunct_chars c h1.2
    have hword : isWordCharM c = true := by
      rcases Bool.or_eq_true_iff.mp h2 with h3 | h3
      · exact h3
      · rw [h1.1] at h3; cases h3
    exact ⟨hword, stripPunct_lower_chars c h1.2, h1.1⟩
  refine ⟨((splitWs (stripPunct (lowerStr l))).map dropStop).filter (fun y => !y.isEmpty),
    ?_, ?_⟩
  · intro w hw
    have hwrs := List.mem_of_mem_filter hw
    have hne : (!w.isEmpty) = true := (List.mem_filter.mp hw).2
    have hne2 : w.isEmpty = false := by simpa using hne
    refine ⟨hne2, ?_, fun c hc => ⟨(hrs_chars w hwrs c hc).1, (hrs_chars w hwrs c hc).2.1⟩⟩
    rcases List.mem_map.mp hwrs with ⟨r, _, hwr⟩
    rw [← hwr]
    exact dropStop_idem_of_ne (hwr ▸ hne2)
  · rw [normalizeStr_eq l]
    have hnws2 : ∀ w ∈ (splitWs (stripPunct (lowerStr l))).map dropStop, ∀ c ∈ w,
        isWsM c = false := fun w hw c hc => (hrs_chars w hw c hc).2.2
    have hword2 : ∀ w ∈ (splitWs (stripPunct (lowerStr l))).map dropStop, ∀ c ∈ w,
        isWordCharM c = true := fun w hw c hc => (hrs_chars w hw c hc).1
    have hlow2 : ∀ w ∈ (splitWs (stripPunct (lowerStr l))).map dropStop, ∀ c ∈ w,
        Char.toLower c = c := fun w hw c hc => (hrs_chars w hw c hc).2.1
    rw [normalizeStr_eq, lowerStr_joinWords_fixed hlow2, stripPunct_joinWords_fixed hword2,
      splitWs_joinWords _ hnws2]
    congr 1
    apply map_fixed
    intro w hw
    have hne : (!w.isEmpty) = true := (List.mem_filter.mp hw).2
    rcases List.mem_map.mp (List.mem_of_mem_filter hw) with ⟨r, _, hwr⟩
    rw [← hwr]
    exact dropStop_idem_of_ne (hwr ▸ (by simpa using hne))

/-- C2 counterexample: `normalize` is not idempotent.  On `"a slowed b"` the
stoplist deletion leaves the two spaces that surrounded `slowed`, and only the
second application collapses them. -/
theorem claim_C2_counterexample :
    normalizeStr (normalizeStr "a slowed b".toList) ≠ normalizeStr "a slowed b".toList ∧
    normalizeStr "a slowed b".toList = "a  b".toList ∧
    normalizeStr (normalizeStr "a slowed b".toList) = "a b".toList := by
  refine ⟨by decide, by decide, by decide⟩

/-- C2 (amended): `normalize` is idempotent only from the second application
on — for every string s, `normalize (normalize s)` is a fixed point of
`normalize`, i.e. `normalize (normalize (normalize s)) = normalize (normalize s)`;
a single application can leave residual whitespace where a stoplist word was
deleted, so `normalize (normalize s) = normalize s` fails in general. -/
theorem claim_C2_normalize_twice_fixed (l : List Char) :
    normalizeStr (normalizeStr (normalizeStr l)) = normalizeStr (normalizeStr l) := by
  obtain ⟨ws, hg, he⟩ := normalizeStr_normalizeStr_good l
  rw [he, normalizeStr_joinWords_good hg]

/-! ### Match scoring

`_calculate_match_score` in async_search.py normalizes both strings and takes
the Jaccard index of the word sets; `_score` in soundcloud.py takes the same
Jaccard index of word sets of strings that its caller has already normalized
with `_norm`. -/

/-- `_score(a, b)` from soundcloud.py: Jaccard index of the whitespace-token
word sets of its two arguments; 0 when either set is empty. -/
def scoreWords (a b : List Char) : ℚ :=
  if (splitWs a).toFinset = ∅ ∨ (splitWs b).toFinset = ∅ then 0
  else (((splitWs a).toFinset ∩ (splitWs b).toFinset).card : ℚ)
      / (((splitWs a).toFinset ∪ (splitWs b).toFinset).card : ℚ)

/-- `_calculate_match_score(target, candidate)` from async_search.py. -/
def calculateMatchScore (target candidate : List Char) : ℚ :=
  scoreWords (normalizeStr target) (normalizeStr candidate)

/-- The Jaccard index exactly as the spec words it: intersection size divided
by union size. -/
def jaccardIndex (a b : Finset (List Char)) : ℚ :=
  ((a ∩ b).card : ℚ) / ((a ∪ b).card : ℚ)

lemma calculateMatchScore_nonneg (t c : List Char) : 0 ≤ calculateMatchScore t c := by
  unfold calculateMatchScore scoreWords
  split
  · exact le_refl 0
  · positivity

lemma calculateMatchScore_le_one (t c : List Char) : calculateMatchScore t c ≤ 1 := by
  unfold calculateMatchScore scoreWords
  split
  · norm_num
  · rename_i h
    push_neg at h
    have hne : ((splitWs (normalizeStr t)).toFinset ∪ (splitWs (normalizeStr c)).toFinset).Nonempty := by
      refine Finset.Nonempty.mono Finset.subset_union_left ?_
      exact Finset.nonempty_iff_ne_empty.mpr h.1
    have hpos : (0 : ℚ) < (((splitWs (normalizeStr t)).toFinset ∪ (splitWs (normalizeStr c)).toFinset).card : ℚ) := by
      exact_mod_cast Finset.card_pos.mpr hne
    rw [div_le_one hpos]
    exact_mod_cast Finset.card_le_card Finset.inter_subset_union

/-- C8: the match score is the Jaccard index of the word sets of the
normalized strings; it lies in [0,1]; it is 0 when either normalized string
has no tokens; it is symmetric; it is 1 on identical input with non-empty
normalization; and the soundcloud.py variant `_score` composed with `_norm`
computes the same value. -/
theorem claim_C8_score_is_jaccard (t c : List Char) :
    (calculateMatchScore t c
      = if (splitWs (normalizeStr t)).toFinset = ∅ ∨ (splitWs (normalizeStr c)).toFinset = ∅
        then 0
        else jaccardIndex (splitWs (normalizeStr t)).toFinset (splitWs (normalizeStr c)).toFinset) ∧
    0 ≤ calculateMatchScore t c ∧
    calculateMatchScore t c ≤ 1 ∧
    (splitWs (normalizeStr t) = [] ∨ splitWs (normalizeStr c) = [] →
      calculateMatchScore t c = 0) ∧
    calculateMatchScore t c = calculateMatchScore c t ∧
    (splitWs (normalizeStr t) ≠ [] → calculateMatchScore t t = 1) ∧
    calculateMatchScore t c = scoreWords (normalizeStr t) (normalizeStr c) := by
  refine ⟨rfl, calculateMatchScore_nonneg t c, calculateMatchScore_le_one t c, ?_, ?_, ?_, rfl⟩
  · intro h
    have h1 : (splitWs (normalizeStr t)).toFinset = ∅ ∨ (splitWs (normalizeStr c)).toFinset = ∅ := by
      rcases h with h | h <;> [left; right] <;> simp [h]
    unfold calculateMatchScore scoreWords
    rw [if_pos h1]
  · unfold calculateMatchScore scoreWords
    by_cases h : (splitWs (normalizeStr t)).toFinset = ∅ ∨ (splitWs (normalizeStr c)).toFinset = ∅
    · rw [if_pos h, if_pos h.symm]
    · rw [if_neg h, if_neg (fun hc => h hc.symm), Finset.inter_comm, Finset.union_comm]
  · intro h
    have h1 : (splitWs (normalizeStr t)).toFinset ≠ ∅ := by
      simpa using h
    unfold calculateMatchScore scoreWords
    rw [if_neg (by simp [h1]), Finset.inter_self, Finset.union_self]
    have hpos : (0 : ℚ) < ((splitWs (normalizeStr t)).toFinset.card : ℚ) := by
      exact_mod_cast Finset.card_pos.mpr (Finset.nonempty_iff_ne_empty.mpr h1)
    exact div_self (ne_of_gt hpos)

/-- C8 witness: concrete evaluation of the scoring properties at
`"hello world"`. -/
theorem claim_C8_score_is_jaccard_witness :
    splitWs (normalizeStr "hello world".toList) ≠ [] ∧
    calculateMatchScore "hello world".toList "hello world".toList = 1 :=
  ⟨by decide,
   (claim_C8_score_is_jaccard "hello world".toList "hello world".toList).2.2.2.2.2.1 (by decide)⟩

/-! ### The async track resolvers

`search_spotify_track` and `search_soundcloud_track` in async_search.py are
coroutines doing I/O.  One call is embedded as a pure function of an
environment describing what the cache, the rate-limit window, the token store
and the HTTP endpoints would answer, and the externally visible actions are
logged in order as a trace of effects.  `_check_rate_limit` both checks the
window and, when allowed, counts the request, so it is logged as a
reservation check followed by a consume. -/

structure Match where
  id : List Char
  title : List Char
  artist : List Char
  matchScore : ℚ
deriving DecidableEq

inductive Effect where
  | cacheCheck
  | rateCheck
  | rateConsume
  | sleepRateLimit
  | tokenFetch
  | httpPrimary
  | httpRetry
  | httpFallback
  | refreshAttempt
  | cacheWrite (m : Match)
deriving DecidableEq

structure SpTrack where
  name : List Char
  artists : List (List Char)
  id : List Char

structure ScTrack where
  title : List Char
  username : List Char
  id : List Char

/-- Candidate string for a Spotify hit: the track name, a space, then the
first listed artist (empty when the artist list is empty). -/
def spCandidate (tr : SpTrack) : List Char := tr.name ++ ' ' :: tr.artists.headD []

def spToMatch (tr : SpTrack) (s : ℚ) : Match := ⟨tr.id, tr.name, tr.artists.headD [], s⟩

/-- Candidate string for a SoundCloud hit: title, space, uploader username. -/
def scCandidate (tr : ScTrack) : List Char := tr.title ++ ' ' :: tr.username

def scToMatch (tr : ScTrack) (s : ℚ) : Match := ⟨tr.id, tr.title, tr.username, s⟩

/-- The best-match loop: start from no match and best score 0.0 and replace
whenever a candidate scores strictly higher. -/
def bestFold {α : Type} (query : List Char) (cand : α → List Char)
    (toM : α → ℚ → Match) (tracks : List α) : Option Match × ℚ :=
  tracks.foldl (fun acc tr =>
    if acc.2 < calculateMatchScore query (cand tr)
    then (some (toM tr (calculateMatchScore query (cand tr))),
          calculateMatchScore query (cand tr))
    else acc) (none, 0)

lemma bestFold_score_aux {α : Type} (query : List Char) (cand : α → List Char)
    (toM : α → ℚ → Match) (hg : ∀ tr s, (toM tr s).matchScore = s) :
    ∀ (tracks : List α) (acc : Option Match × ℚ),
      (∀ m, acc.1 = some m → m.matchScore = acc.2) →
      ∀ m, (tracks.foldl (fun acc tr =>
          if acc.2 < calculateMatchScore query (cand tr)
          then (some (toM tr (calculateMatchScore query (cand tr))),
                calculateMatchScore query (cand tr))
          else acc) acc).1 = some m →
        m.matchScore = (tracks.foldl (fun acc tr =>
          if acc.2 < calculateMatchScore query (cand tr)
          then (some (toM tr (calculateMatchScore query (cand tr))),
                calculateMatchScore query (cand tr))
          else acc) acc).2
  | [], acc, hacc, m => hacc m
  | tr :: tracks, acc, hacc, m => by
    intro hm
    refine bestFold_score_aux query cand toM hg tracks _ ?_ m hm
    by_cases hlt : acc.2 < calculateMatchScore query (cand tr)
    · intro m1 hm1
      simp [hlt] at hm1 ⊢
      rw [← hm1, hg]
    · intro m1 hm1
      simp [hlt] at hm1 ⊢
      exact hacc m1 hm1

/-- In the best-match loop the stored `match_score` field of the winner always
equals the running best score. -/
lemma bestFold_score {α : Type} (query : List Char) (cand : α → List Char)
    (toM : α → ℚ → Match) (hg : ∀ tr s, (toM tr s).matchScore = s)
    (tracks : List α) {m : Match}
    (hm : (bestFold query cand toM tracks).1 = some m) :
    m.matchScore = (bestFold query cand toM tracks).2 :=
  bestFold_score_aux query cand toM hg tracks (none, 0) (by simp) m hm

/-- The tail of both async resolvers: no hits gives a miss; a best match at or
above the 0.5 threshold is returned and written to the cache; anything else is
a miss and writes nothing. -/
def finishBest {α : Type} (query : List Char) (cand : α → List Char)
    (toM : α → ℚ → Match) (tracks : List α) (fx : List Effect) :
    Option Match × List Effect :=
  if tracks.isEmpty then (none, fx)
  else
    match bestFold query cand toM tracks with
    | (some m, s) => if (1 : ℚ)/2 ≤ s then (some m, fx ++ [Effect.cacheWrite m]) else (none, fx)
    | (none, _) => (none, fx)

structure SpEnv where
  cached : Option Match
  rateOk : Bool
  token : Option (List Char)
  status : ℤ
  tracks : List SpTrack

/-- Rate-limit effects of `_check_rate_limit` plus the sleep on denial. -/
def rateFx (ok : Bool) : List Effect :=
  if ok then [Effect.rateCheck, Effect.rateConsume]
  else [Effect.rateCheck, Effect.sleepRateLimit]

/-- One call of `search_spotify_track` (async_search.py lines 103–164).  Note
there is no 401 handling: every non-200 status is an immediate miss. -/
def searchSpotifyM (query : List Char) (env : SpEnv) : Option Match × List Effect :=
  match env.cached with
  | some m => (some m, [Effect.cacheCheck])
  | none =>
    match env.token with
    | none => (none, Effect.cacheCheck :: rateFx env.rateOk ++ [Effect.tokenFetch])
    | some _ =>
      let fx := Effect.cacheCheck :: rateFx env.rateOk ++ [Effect.tokenFetch, Effect.httpPrimary]
      if env.status ≠ 200 then (none, fx)
      else finishBest query spCandidate spToMatch env.tracks fx

structure ScEnv where
  cached : Option Match
  rateOk : Bool
  token : Option (List Char)
  v2Status : ℤ
  v2Tracks : List ScTrack
  v1Status : ℤ
  v1Tracks : List ScTrack

/-- One call of `search_soundcloud_track` (async_search.py lines 166–237): a
non-200 from the v2 endpoint (401 included) goes straight to one v1 fallback
request; there is no token refresh. -/
def searchSoundcloudM (query : List Char) (env : ScEnv) : Option Match × List Effect :=
  match env.cached with
  | some m => (some m, [Effect.cacheCheck])
  | none =>
    match env.token with
    | none => (none, Effect.cacheCheck :: rateFx env.rateOk ++ [Effect.tokenFetch])
    | some _ =>
      let fx := Effect.cacheCheck :: rateFx env.rateOk ++ [Effect.tokenFetch, Effect.httpPrimary]
      if env.v2Status ≠ 200 then
        if env.v1Status ≠ 200 then (none, fx ++ [Effect.httpFallback])
        else finishBest query scCandidate scToMatch env.v1Tracks (fx ++ [Effect.httpFallback])
      else finishBest query scCandidate scToMatch env.v2Tracks fx

/-! ### Threshold and cache-write invariants of the resolvers -/

lemma miss_props (res : Option Match × List Effect) (hres : res.1 = none)
    (hfx : ∀ m, Effect.cacheWrite m ∉ res.2) :
    (∀ m, res.1 = some m → 1/2 ≤ m.matchScore) ∧
    (∀ m, Effect.cacheWrite m ∈ res.2 → 1/2 ≤ m.matchScore) ∧
    (res.1 = none → ∀ m, Effect.cacheWrite m ∉ res.2) := by
  refine ⟨?_, ?_, fun _ => hfx⟩
  · intro m hm
    rw [hres] at hm
    cases hm
  · intro m hm
    exact absurd hm (hfx m)

lemma finishBest_props {α : Type} (query : List Char) (cand : α → List Char)
    (toM : α → ℚ → Match) (hg : ∀ tr s, (toM tr s).matchScore = s)
    (tracks : List α) (fx : List Effect) (hfx : ∀ m, Effect.cacheWrite m ∉ fx) :
    (∀ m, (finishBest query cand toM tracks fx).1 = some m → 1/2 ≤ m.matchScore) ∧
    (∀ m, Effect.cacheWrite m ∈ (finishBest query cand toM tracks fx).2 → 1/2 ≤ m.matchScore) ∧
    ((finishBest query cand toM tracks fx).1 = none →
      ∀ m, Effect.cacheWrite m ∉ (finishBest query cand toM tracks fx).2) := by
  by_cases hemp : tracks.isEmpty
  · have e : finishBest query cand toM tracks fx = (none, fx) := by
      simp [finishBest, hemp]
    rw [e]
    exact miss_props (none, fx) rfl hfx
  · rcases hbb : bestFold query cand toM tracks with ⟨ob, s⟩
    cases ob with
    | none =>
      have e : finishBest query cand toM tracks fx = (none, fx) := by
        simp [finishBest, hemp, hbb]
      rw [e]
      exact miss_props (none, fx) rfl hfx
    | some m1 =>
      have hsc : m1.matchScore = s := by
        have h0 := bestFold_score query cand toM hg tracks (m := m1) (by rw [hbb])
        rw [hbb] at h0
        exact h0
      by_cases hth : (2⁻¹ : ℚ) ≤ s
      · have e : finishBest query cand toM tracks fx = (some m1, fx ++ [Effect.cacheWrite m1]) := by
          simp [finishBest, hemp, hbb, hth]
        rw [e]
        refine ⟨?_, ?_, ?_⟩
        · intro m hm
          simp at hm
          rw [← hm, hsc]
          linarith [hth]
        · intro m hm
          rcases List.mem_append.mp hm with h1 | h1
          · exact absurd h1 (hfx m)
          · simp at h1
            rw [h1, hsc]
            linarith [hth]
        · intro hn
          cases hn
      · have e : finishBest query cand toM tracks fx = (none, fx) := by
          simp [finishBest, hemp, hbb, hth]
        rw [e]
        exact miss_props (none, fx) rfl hfx

lemma rateFx_no_write (ok : Bool) : ∀ m, Effect.cacheWrite m ∉ rateFx ok := by
  intro m
  cases ok <;> simp [rateFx]

lemma searchSpotifyM_props (query : List Char) (env : SpEnv)
    (h : ∀ m, env.cached = some m → 1/2 ≤ m.matchScore) :
    (∀ m, (searchSpotifyM query env).1 = some m → 1/2 ≤ m.matchScore) ∧
    (∀ m, Effect.cacheWrite m ∈ (searchSpotifyM query env).2 → 1/2 ≤ m.matchScore) ∧
    ((searchSpotifyM query env).1 = none →
      ∀ m, Effect.cacheWrite m ∉ (searchSpotifyM query env).2) := by
  obtain ⟨cached, rateOk, token, status, tracks⟩ := env
  cases cached with
  | some m0 =>
    have e : searchSpotifyM query ⟨some m0, rateOk, token, status, tracks⟩
        = (some m0, [Effect.cacheCheck]) := rfl
    rw [e]
    refine ⟨?_, ?_, ?_⟩
    · intro m hm
      simp at hm
      rw [← hm]
      exact h m0 rfl
    · intro m hm
      simp at hm
    · intro hn
      cases hn
  | none =>
    cases token with
    | none =>
      exact miss_props _ rfl (by intro m; simp [searchSpotifyM]; exact (rateFx_no_write rateOk m))
    | some tok =>
      by_cases hst : status ≠ 200
      · have e : searchSpotifyM query ⟨none, rateOk, some tok, status, tracks⟩
            = (none, Effect.cacheCheck :: rateFx rateOk ++ [Effect.tokenFetch, Effect.httpPrimary]) := by
          simp [searchSpotifyM, hst]
        rw [e]
        refine miss_props _ rfl ?_
        intro m
        simp
        exact rateFx_no_write rateOk m
      · have e : searchSpotifyM query ⟨none, rateOk, some tok, status, tracks⟩
            = finishBest query spCandidate spToMatch tracks
                (Effect.cacheCheck :: rateFx rateOk ++ [Effect.tokenFetch, Effect.httpPrimary]) := by
          simp [searchSpotifyM, hst]
        rw [e]
        refine finishBest_props query spCandidate spToMatch (fun _ _ => rfl) tracks _ ?_
        intro m
        simp
        exact rateFx_no_write rateOk m

lemma searchSoundcloudM_props (query : List Char) (env : ScEnv)
    (h : ∀ m, env.cached = some m → 1/2 ≤ m.matchScore) :
    (∀ m, (searchSoundcloudM query env).1 = some m → 1/2 ≤ m.matchScore) ∧
    (∀ m, Effect.cacheWrite m ∈ (searchSoundcloudM query env).2 → 1/2 ≤ m.matchScore) ∧
    ((searchSoundcloudM query env).1 = none →
      ∀ m, Effect.cacheWrite m ∉ (searchSoundcloudM query env).2) := by
  obtain ⟨cached, rateOk, token, v2s, v2t, v1s, v1t⟩ := env
  cases cached with
  | some m0 =>
    have e : searchSoundcloudM query ⟨some m0, rateOk, token, v2s, v2t, v1s, v1t⟩
        = (some m0, [Effect.cacheCheck]) := rfl
    rw [e]
    refine ⟨?_, ?_, ?_⟩
    · intro m hm
      simp at hm
      rw [← hm]
      exact h m0 rfl
    · intro m hm
      simp at hm
    · intro hn
      cases hn
  | none =>
    cases token with
    | none =>
      exact miss_props _ rfl (by intro m; simp [searchSoundcloudM]; exact (rateFx_no_write rateOk m))
    | some tok =>
      by_cases h2 : v2s ≠ 200
      · by_cases h1 : v1s ≠ 200
        · have e : searchSoundcloudM query ⟨none, rateOk, some tok, v2s, v2t, v1s, v1t⟩
              = (none, (Effect.cacheCheck :: rateFx rateOk ++ [Effect.tokenFetch, Effect.httpPrimary])
                  ++ [Effect.httpFallback]) := by
            simp [searchSoundcloudM, h2, h1]
          rw [e]
          refine miss_props _ rfl ?_
          intro m
          simp
          exact rateFx_no_write rateOk m
        · have e : searchSoundcloudM query ⟨none, rateOk, some tok, v2s, v2t, v1s, v1t⟩
              = finishBest query scCandidate scToMatch v1t
                  ((Effect.cacheCheck :: rateFx rateOk ++ [Effect.tokenFetch, Effect.httpPrimary])
                    ++ [Effect.httpFallback]) := by
            simp [searchSoundcloudM, h2, h1]
          rw [e]
          refine finishBest_props query scCandidate scToMatch (fun _ _ => rfl) v1t _ ?_
          intro m
          simp
          exact rateFx_no_write rateOk m
      · have e : searchSoundcloudM query ⟨none, rateOk, some tok, v2s, v2t, v1s, v1t⟩
            = finishBest query scCandidate scToMatch v2t
                (Effect.cacheCheck :: rateFx rateOk ++ [Effect.tokenFetch, Effect.httpPrimary]) := by
          simp [searchSoundcloudM, h2]
        rw [e]
        refine finishBest_props query scCandidate scToMatch (fun _ _ => rfl) v2t _ ?_
        intro m
        simp
        exact rateFx_no_write rateOk m

/-- C5: every match returned by the async track resolvers carries a score at
or above the fixed 0.5 acceptance threshold (cached entries are assumed to
satisfy the same bound, since this resolver is the only writer of the cache),
every cache write carries a score at or above 0.5, and a resolution that
returns no match writes nothing to the cache. -/
theorem claim_C5_threshold_and_no_negative_caching
    (query : List Char) (envS : SpEnv) (envC : ScEnv)
    (hS : ∀ m, envS.cached = some m → 1/2 ≤ m.matchScore)
    (hC : ∀ m, envC.cached = some m → 1/2 ≤ m.matchScore) :
    ((∀ m, (searchSpotifyM query envS).1 = some m → 1/2 ≤ m.matchScore) ∧
     (∀ m, Effect.cacheWrite m ∈ (searchSpotifyM query envS).2 → 1/2 ≤ m.matchScore) ∧
     ((searchSpotifyM query envS).1 = none →
       ∀ m, Effect.cacheWrite m ∉ (searchSpotifyM query envS).2)) ∧
    ((∀ m, (searchSoundcloudM query envC).1 = some m → 1/2 ≤ m.matchScore) ∧
     (∀ m, Effect.cacheWrite m ∈ (searchSoundcloudM query envC).2 → 1/2 ≤ m.matchScore) ∧
     ((searchSoundcloudM query envC).1 = none →
       ∀ m, Effect.cacheWrite m ∉ (searchSoundcloudM query envC).2)) :=
  ⟨searchSpotifyM_props query envS hS, searchSoundcloudM_props query envC hC⟩

/-- C5 witness: a search over one perfectly matching candidate. -/
theorem claim_C5_threshold_witness :
    (∀ m : Match, ((⟨none, true, some "t".toList, 200,
        [⟨"song".toList, ["artist".toList], "id1".toList⟩]⟩ : SpEnv)).cached
        = some m → 1/2 ≤ m.matchScore) ∧
    (∀ m, (searchSpotifyM "song artist".toList
        (⟨none, true, some "t".toList, 200,
          [⟨"song".toList, ["artist".toList], "id1".toList⟩]⟩ : SpEnv)).1 = some m →
      1/2 ≤ m.matchScore) :=
  ⟨by simp,
   (claim_C5_threshold_and_no_negative_caching "song artist".toList
      (⟨none, true, some "t".toList, 200,
        [⟨"song".toList, ["artist".toList], "id1".toList⟩]⟩ : SpEnv)
      ⟨none, true, none, 200, [], 200, []⟩ (by simp) (by simp)).1.1⟩

/-- C6: on a cache hit both async resolvers return the cached match at once
and the trace holds only the cache lookup — in particular no rate-limiter
reservation check and no consume is performed. -/
theorem claim_C6_cache_hit_bypasses_rate_limiter
    (query : List Char) (envS : SpEnv) (envC : ScEnv) (mS mC : Match)
    (hS : envS.cached = some mS) (hC : envC.cached = some mC) :
    searchSpotifyM query envS = (some mS, [Effect.cacheCheck]) ∧
    Effect.rateCheck ∉ (searchSpotifyM query envS).2 ∧
    Effect.rateConsume ∉ (searchSpotifyM query envS).2 ∧
    searchSoundcloudM query envC = (some mC, [Effect.cacheCheck]) ∧
    Effect.rateCheck ∉ (searchSoundcloudM query envC).2 ∧
    Effect.rateConsume ∉ (searchSoundcloudM query envC).2 := by
  obtain ⟨cached, rateOk, token, status, tracks⟩ := envS
  obtain ⟨cached2, rateOk2, token2, v2s, v2t, v1s, v1t⟩ := envC
  have hS2 : cached = some mS := hS
  have hC2 : cached2 = some mC := hC
  subst hS2
  subst hC2
  refine ⟨rfl, ?_, ?_, rfl, ?_, ?_⟩ <;> simp [searchSpotifyM, searchSoundcloudM]

/-- C6 witness: a concrete cache hit. -/
theorem claim_C6_cache_hit_witness :
    ((⟨some ⟨"i".toList, "t".toList, "a".toList, 1⟩, true,
        none, 200, []⟩ : SpEnv)).cached
      = some ⟨"i".toList, "t".toList, "a".toList, 1⟩ ∧
    searchSpotifyM [] (⟨some ⟨"i".toList, "t".toList, "a".toList, 1⟩, true,
        none, 200, []⟩ : SpEnv)
      = (some ⟨"i".toList, "t".toList, "a".toList, 1⟩, [Effect.cacheCheck]) :=
  ⟨rfl,
   (claim_C6_cache_hit_bypasses_rate_limiter []
      (⟨some ⟨"i".toList, "t".toList, "a".toList, 1⟩, true,
        none, 200, []⟩ : SpEnv)
      ⟨some ⟨"i".toList, "t".toList, "a".toList, 1⟩, true, none, 200, [], 200, []⟩
      _ _ rfl rfl).1⟩

/-! ### The synchronous SoundCloud resolver (soundcloud.py lines 82–133)

This resolver is the one with 401 handling: a 401 from the v2 endpoint
triggers one token refresh; if the refresh fails the resolver gives up at
once, otherwise it retries the v2 search exactly once; any remaining non-200
status gets exactly one fallback request to the v1 endpoint. -/

structure ScSyncEnv where
  savedToken : Option (List Char)
  v2Status : ℤ
  v2Items : List ScTrack
  refreshResult : Option (List Char)
  retryStatus : ℤ
  retryItems : List ScTrack
  v1Status : ℤ
  v1Items : List ScTrack

/-- The best-match loop of soundcloud.py: `if not best or score > best[0]`,
so the first candidate always becomes the incumbent. -/
def scSyncBest (title artist : List Char) (items : List ScTrack) : Option (ℚ × ScTrack) :=
  items.foldl (fun best it =>
    match best with
    | none => some (calculateMatchScore (title ++ ' ' :: artist) (scCandidate it), it)
    | some (bs, bi) =>
        if bs < calculateMatchScore (title ++ ' ' :: artist) (scCandidate it)
        then some (calculateMatchScore (title ++ ' ' :: artist) (scCandidate it), it)
        else some (bs, bi)) none

/-- Tail of the sync resolver after the scored response is known: empty item
list is a miss, otherwise accept the best candidate iff its score is ≥ 0.5. -/
def scSyncFinish (title artist : List Char) (items : List ScTrack) (fx : List Effect) :
    Option ScTrack × List Effect :=
  if items.isEmpty then (none, fx)
  else
    match scSyncBest title artist items with
    | some (bs, bi) => if (2⁻¹ : ℚ) ≤ bs then (some bi, fx) else (none, fx)
    | none => (none, fx)

/-- The status check after the (possibly retried) v2 call: non-200 gets one
v1 fallback request, then a non-200 there is a miss. -/
def scSyncTail (title artist : List Char) (status : ℤ) (items : List ScTrack)
    (v1Status : ℤ) (v1Items : List ScTrack) (fx : List Effect) :
    Option ScTrack × List Effect :=
  if status ≠ 200 then
    if v1Status ≠ 200 then (none, fx ++ [Effect.httpFallback])
    else scSyncFinish title artist v1Items (fx ++ [Effect.httpFallback])
  else scSyncFinish title artist items fx

/-- One call of the synchronous `search_soundcloud_track` of soundcloud.py. -/
def searchScSyncM (title artist : List Char) (env : ScSyncEnv) :
    Option ScTrack × List Effect :=
  match env.savedToken with
  | none => (none, [Effect.tokenFetch])
  | some _ =>
    if env.v2Status = 401 then
      match env.refreshResult with
      | none => (none, [Effect.tokenFetch, Effect.httpPrimary, Effect.refreshAttempt])
      | some _ =>
        scSyncTail title artist env.retryStatus env.retryItems env.v1Status env.v1Items
          [Effect.tokenFetch, Effect.httpPrimary, Effect.refreshAttempt, Effect.httpRetry]
    else
      scSyncTail title artist env.v2Status env.v2Items env.v1Status env.v1Items
        [Effect.tokenFetch, Effect.httpPrimary]

lemma scSyncFinish_trace (title artist : List Char) (items : List ScTrack)
    (fx : List Effect) : (scSyncFinish title artist items fx).2 = fx := by
  unfold scSyncFinish
  by_cases hemp : items.isEmpty
  · simp [hemp]
  · rcases hb : scSyncBest title artist items with _ | ⟨bs, bi⟩
    · simp [hemp, hb]
    · by_cases hth : (2⁻¹ : ℚ) ≤ bs <;> simp [hemp, hb, hth]

lemma scSyncTail_trace (title artist : List Char) (status : ℤ) (items : List ScTrack)
    (v1Status : ℤ) (v1Items : List ScTrack) (fx : List Effect) :
    (scSyncTail title artist status items v1Status v1Items fx).2 = fx ∨
    (scSyncTail title artist status items v1Status v1Items fx).2 = fx ++ [Effect.httpFallback] := by
  unfold scSyncTail
  by_cases hs : status ≠ 200
  · by_cases h1 : v1Status ≠ 200
    · simp [hs, h1]
    · simp [hs, h1, scSyncFinish_trace]
  · simp [hs, scSyncFinish_trace]

lemma finishBest_trace {α : Type} (query : List Char) (cand : α → List Char)
    (toM : α → ℚ → Match) (tracks : List α) (fx : List Effect) :
    (finishBest query cand toM tracks fx).2 = fx ∨
    ∃ m, (finishBest query cand toM tracks fx).2 = fx ++ [Effect.cacheWrite m] := by
  unfold finishBest
  by_cases hemp : tracks.isEmpty
  · simp [hemp]
  · rcases hb : bestFold query cand toM tracks with ⟨ob, s⟩
    cases ob with
    | none => simp [hemp, hb]
    | some m1 =>
      by_cases hth : (2⁻¹ : ℚ) ≤ s
      · right
        exact ⟨m1, by simp [hemp, hb, hth]⟩
      · left
        simp [hemp, hb, hth]

/-- The async SoundCloud resolver of async_search.py never attempts a token
refresh and never retries the primary search, whatever the environment. -/
lemma searchSoundcloudM_no_refresh_no_retry (query : List Char) (env : ScEnv) :
    Effect.refreshAttempt ∉ (searchSoundcloudM query env).2 ∧
    Effect.httpRetry ∉ (searchSoundcloudM query env).2 := by
  obtain ⟨cached, rateOk, token, v2s, v2t, v1s, v1t⟩ := env
  cases cached with
  | some m0 =>
    have e : searchSoundcloudM query ⟨some m0, rateOk, token, v2s, v2t, v1s, v1t⟩
        = (some m0, [Effect.cacheCheck]) := rfl
    rw [e]
    exact ⟨by simp, by simp⟩
  | none =>
    cases token with
    | none =>
      have e : searchSoundcloudM query ⟨none, rateOk, none, v2s, v2t, v1s, v1t⟩
          = (none, Effect.cacheCheck :: rateFx rateOk ++ [Effect.tokenFetch]) := rfl
      rw [e]
      cases rateOk <;> exact ⟨by simp [rateFx], by simp [rateFx]⟩
    | some tok =>
      by_cases h2 : v2s ≠ 200
      · by_cases h1 : v1s ≠ 200
        · have e : searchSoundcloudM query ⟨none, rateOk, some tok, v2s, v2t, v1s, v1t⟩
              = (none, (Effect.cacheCheck :: rateFx rateOk
                  ++ [Effect.tokenFetch, Effect.httpPrimary]) ++ [Effect.httpFallback]) := by
            simp [searchSoundcloudM, h2, h1]
          rw [e]
          cases rateOk <;> exact ⟨by simp [rateFx], by simp [rateFx]⟩
        · have e : searchSoundcloudM query ⟨none, rateOk, some tok, v2s, v2t, v1s, v1t⟩
              = finishBest query scCandidate scToMatch v1t
                  ((Effect.cacheCheck :: rateFx rateOk
                    ++ [Effect.tokenFetch, Effect.httpPrimary]) ++ [Effect.httpFallback]) := by
            simp [searchSoundcloudM, h2, h1]
          rw [e]
          rcases finishBest_trace query scCandidate scToMatch v1t
              ((Effect.cacheCheck :: rateFx rateOk
                ++ [Effect.tokenFetch, Effect.httpPrimary]) ++ [Effect.httpFallback])
            with ht | ⟨m, ht⟩ <;> rw [ht] <;>
            cases rateOk <;> exact ⟨by simp [rateFx], by simp [rateFx]⟩
      · have e : searchSoundcloudM query ⟨none, rateOk, some tok, v2s, v2t, v1s, v1t⟩
            = finishBest query scCandidate scToMatch v2t
                (Effect.cacheCheck :: rateFx rateOk
                  ++ [Effect.tokenFetch, Effect.httpPrimary]) := by
          simp [searchSoundcloudM, h2]
        rw [e]
        rcases finishBest_trace query scCandidate scToMatch v2t
            (Effect.cacheCheck :: rateFx rateOk
              ++ [Effect.tokenFetch, Effect.httpPrimary])
          with ht | ⟨m, ht⟩ <;> rw [ht] <;>
          cases rateOk <;> exact ⟨by simp [rateFx], by simp [rateFx]⟩

/-- On a cache miss with a token present, a non-200 from the v2 endpoint (401
included) sends the async SoundCloud resolver straight to exactly one v1
fallback request. -/
lemma searchSoundcloudM_fallback_once (query : List Char) (env : ScEnv)
    (hc : env.cached = none) (ht : env.token ≠ none) (h2 : env.v2Status ≠ 200) :
    (searchSoundcloudM query env).2.count Effect.httpFallback = 1 := by
  obtain ⟨cached, rateOk, token, v2s, v2t, v1s, v1t⟩ := env
  have hcc : cached = none := hc
  subst hcc
  cases token with
  | none => exact absurd rfl ht
  | some tok =>
    have h2s : v2s ≠ 200 := h2
    by_cases h1 : v1s ≠ 200
    · have e : searchSoundcloudM query ⟨none, rateOk, some tok, v2s, v2t, v1s, v1t⟩
          = (none, (Effect.cacheCheck :: rateFx rateOk
              ++ [Effect.tokenFetch, Effect.httpPrimary]) ++ [Effect.httpFallback]) := by
        simp [searchSoundcloudM, h2s, h1]
      rw [e]
      cases rateOk <;> decide
    · have e : searchSoundcloudM query ⟨none, rateOk, some tok, v2s, v2t, v1s, v1t⟩
          = finishBest query scCandidate scToMatch v1t
              ((Effect.cacheCheck :: rateFx rateOk
                ++ [Effect.tokenFetch, Effect.httpPrimary]) ++ [Effect.httpFallback]) := by
        simp [searchSoundcloudM, h2s, h1]
      rw [e]
      rcases finishBest_trace query scCandidate scToMatch v1t
          ((Effect.cacheCheck :: rateFx rateOk
            ++ [Effect.tokenFetch, Effect.httpPrimary]) ++ [Effect.httpFallback])
        with htr | ⟨m, htr⟩ <;> rw [htr]
      · cases rateOk <;> decide
      · cases rateOk <;>
          simp [rateFx, List.count_append, List.count_cons, List.count_nil]

/-- C4 counterexample: in the async Spotify resolver a 401 response triggers
no token refresh and no retry — the search returns a miss at once, refuting
the claim that every track search refreshes once and retries once on 401. -/
theorem claim_C4_counterexample :
    (searchSpotifyM "song artist".toList ⟨none, true, some "tok".toList, 401, []⟩).1 = none ∧
    Effect.refreshAttempt ∉
      (searchSpotifyM "song artist".toList ⟨none, true, some "tok".toList, 401, []⟩).2 ∧
    Effect.httpRetry ∉
      (searchSpotifyM "song artist".toList ⟨none, true, some "tok".toList, 401, []⟩).2 := by
  refine ⟨?_, ?_, ?_⟩ <;> decide

/-- C4 (amended): the 401 refresh-and-retry protocol lives only in the
synchronous SoundCloud resolver of soundcloud.py: there a 401 from the primary
search triggers exactly one token refresh, then exactly one retry when the
refresh produced a token (giving up with no retry and no fallback when it did
not), while a non-401 failure triggers no refresh and exactly one fallback
request to the legacy endpoint and is a non-fatal miss on continued failure.
The async resolvers of async_search.py never refresh: the async Spotify
search treats every non-200 status, 401 included, as an immediate miss, and
the async SoundCloud search never emits a refresh attempt or retry — on a
cache miss with a token present, a non-200 from the v2 endpoint (401
included) goes straight to exactly one v1 fallback request. -/
theorem claim_C4_refresh_retry_sync_only
    (title artist query : List Char) (env : ScSyncEnv) (envS : SpEnv) (envC : ScEnv) :
    (env.savedToken ≠ none → env.v2Status = 401 →
      ((searchScSyncM title artist env).2.count Effect.refreshAttempt = 1 ∧
       (env.refreshResult = none →
          (searchScSyncM title artist env).1 = none ∧
          Effect.httpRetry ∉ (searchScSyncM title artist env).2 ∧
          Effect.httpFallback ∉ (searchScSyncM title artist env).2) ∧
       (env.refreshResult ≠ none →
          (searchScSyncM title artist env).2.count Effect.httpRetry = 1))) ∧
    (env.savedToken ≠ none → env.v2Status ≠ 401 → env.v2Status ≠ 200 →
      ((searchScSyncM title artist env).2.count Effect.refreshAttempt = 0 ∧
       (searchScSyncM title artist env).2.count Effect.httpFallback = 1 ∧
       (env.v1Status ≠ 200 → (searchScSyncM title artist env).1 = none))) ∧
    (envS.cached = none → envS.status ≠ 200 →
      ((searchSpotifyM query envS).1 = none ∧
       Effect.refreshAttempt ∉ (searchSpotifyM query envS).2 ∧
       Effect.httpRetry ∉ (searchSpotifyM query envS).2)) ∧
    (Effect.refreshAttempt ∉ (searchSoundcloudM query envC).2 ∧
     Effect.httpRetry ∉ (searchSoundcloudM query envC).2 ∧
     (envC.cached = none → envC.token ≠ none → envC.v2Status ≠ 200 →
       (searchSoundcloudM query envC).2.count Effect.httpFallback = 1)) := by
  obtain ⟨tok, v2s, v2i, rr, rs, ri, v1s, v1i⟩ := env
  obtain ⟨cached, rateOk, tokenS, status, tracks⟩ := envS
  refine ⟨?_, ?_, ?_,
    ⟨(searchSoundcloudM_no_refresh_no_retry query envC).1,
     (searchSoundcloudM_no_refresh_no_retry query envC).2,
     fun hc ht h2 => searchSoundcloudM_fallback_once query envC hc ht h2⟩⟩
  · intro htok h401
    cases tok with
    | none => exact absurd rfl htok
    | some t =>
      have h401s : v2s = 401 := h401
      subst h401s
      cases rr with
      | none =>
        have e : searchScSyncM title artist ⟨some t, 401, v2i, none, rs, ri, v1s, v1i⟩
            = (none, [Effect.tokenFetch, Effect.httpPrimary, Effect.refreshAttempt]) := rfl
        rw [e]
        refine ⟨by decide, fun _ => ⟨rfl, by decide, by decide⟩, ?_⟩
        intro hrr
        exact absurd rfl hrr
      | some r =>
        have e : searchScSyncM title artist ⟨some t, 401, v2i, some r, rs, ri, v1s, v1i⟩
            = scSyncTail title artist rs ri v1s v1i
                [Effect.tokenFetch, Effect.httpPrimary, Effect.refreshAttempt,
                 Effect.httpRetry] := rfl
        rw [e]
        rcases scSyncTail_trace title artist rs ri v1s v1i
            [Effect.tokenFetch, Effect.httpPrimary, Effect.refreshAttempt,
             Effect.httpRetry] with h | h
        · refine ⟨by rw [h]; decide, ?_, fun _ => by rw [h]; decide⟩
          intro hrr
          cases hrr
        · refine ⟨by rw [h]; decide, ?_, fun _ => by rw [h]; decide⟩
          intro hrr
          cases hrr
  · intro htok h401 h200
    cases tok with
    | none => exact absurd rfl htok
    | some t =>
      have e : searchScSyncM title artist ⟨some t, v2s, v2i, rr, rs, ri, v1s, v1i⟩
          = scSyncTail title artist v2s v2i v1s v1i
              [Effect.tokenFetch, Effect.httpPrimary] := by
        simp [searchScSyncM, h401]
      rw [e]
      by_cases h1 : v1s ≠ 200
      · have e2 : scSyncTail title artist v2s v2i v1s v1i
            [Effect.tokenFetch, Effect.httpPrimary]
            = (none, [Effect.tokenFetch, Effect.httpPrimary] ++ [Effect.httpFallback]) := by
          simp [scSyncTail, h200, h1]
        rw [e2]
        exact ⟨by decide, by decide, fun _ => rfl⟩
      · have e2 : scSyncTail title artist v2s v2i v1s v1i
            [Effect.tokenFetch, Effect.httpPrimary]
            = scSyncFinish title artist v1i
                ([Effect.tokenFetch, Effect.httpPrimary] ++ [Effect.httpFallback]) := by
          simp [scSyncTail, h200, h1]
        rw [e2]
        refine ⟨?_, ?_, fun hv => absurd hv h1⟩
        · rw [scSyncFinish_trace]
          decide
        · rw [scSyncFinish_trace]
          decide
  · intro hc hst
    have hcc : cached = none := hc
    subst hcc
    cases tokenS with
    | none =>
      have e : searchSpotifyM query ⟨none, rateOk, none, status, tracks⟩
          = (none, Effect.cacheCheck :: rateFx rateOk ++ [Effect.tokenFetch]) := rfl
      rw [e]
      cases rateOk <;> exact ⟨rfl, by decide, by decide⟩
    | some t =>
      have e : searchSpotifyM query ⟨none, rateOk, some t, status, tracks⟩
          = (none, Effect.cacheCheck :: rateFx rateOk
              ++ [Effect.tokenFetch, Effect.httpPrimary]) := by
        simp [searchSpotifyM, hst]
      rw [e]
      cases rateOk <;> exact ⟨rfl, by decide, by decide⟩

/-- C4 witness: with a saved token and a 401 primary response the sync
resolver performs exactly one refresh attempt. -/
theorem claim_C4_refresh_retry_witness :
    ((⟨some "t".toList, 401, [], none, 0, [], 0, []⟩ : ScSyncEnv).savedToken ≠ none ∧
     (⟨some "t".toList, 401, [], none, 0, [], 0, []⟩ : ScSyncEnv).v2Status = 401) ∧
    (searchScSyncM "a".toList "b".toList
        ⟨some "t".toList, 401, [], none, 0, [], 0, []⟩).2.count Effect.refreshAttempt = 1 :=
  ⟨⟨by simp, rfl⟩,
   ((claim_C4_refresh_retry_sync_only "a".toList "b".toList []
      ⟨some "t".toList, 401, [], none, 0, [], 0, []⟩
      ⟨none, true, none, 200, []⟩
      ⟨none, true, none, 200, [], 200, []⟩).1 (by simp) rfl).1⟩

/-! ### The token store (token_manager.py)

`get_spotify_token` and `get_soundcloud_token` read the stored session record,
return the access token while unexpired, and otherwise attempt a refresh when
a refresh token exists.  The network refresh call is abstracted by its
outcome: `none` for a failed refresh, `some a` for a successful refresh that
returned access token `a` (persisting the refreshed record through
`save_*_token` is a side effect outside this value-level model).  The only
divergence between the two getters is the final fallthrough: the Spotify one
returns no token, the SoundCloud one returns the stale stored access token. -/

structure TokenRec where
  access : Option (List Char)
  refresh : Option (List Char)
  expiresAt : Option ℚ

/-- `get_spotify_token` (token_manager.py lines 63–84). -/
def getSpotifyTokenM (rec : Option TokenRec) (now : ℚ)
    (refreshOutcome : Option (List Char)) : Option (List Char) :=
  match rec with
  | none => none
  | some r =>
    match r.access with
    | none => none
    | some a =>
      match r.expiresAt with
      | some e =>
        if now < e then some a
        else
          match r.refresh with
          | some _ =>
            (match refreshOutcome with
             | some newA => some newA
             | none => none)
          | none => none
      | none =>
        match r.refresh with
        | some _ =>
          (match refreshOutcome with
           | some newA => some newA
           | none => none)
        | none => none

/-- `get_soundcloud_token` (token_manager.py lines 86–108): identical except
that it ends with `return user_session.soundcloud_access_token`. -/
def getSoundcloudTokenM (rec : Option TokenRec) (now : ℚ)
    (refreshOutcome : Option (List Char)) : Option (List Char) :=
  match rec with
  | none => none
  | some r =>
    match r.access with
    | none => none
    | some a =>
      match r.expiresAt with
      | some e =>
        if now < e then some a
        else
          match r.refresh with
          | some _ =>
            (match refreshOutcome with
             | some newA => some newA
             | none => some a)
          | none => some a
      | none =>
        match r.refresh with
        | some _ =>
          (match refreshOutcome with
           | some newA => some newA
           | none => some a)
        | none => some a

/-- C3 counterexample: an expired SoundCloud record whose refresh call fails
still yields the stale access token — not an auth-required signal. -/
theorem claim_C3_counterexample :
    getSoundcloudTokenM (some ⟨some "stale".toList, some "rt".toList, some 100⟩) 200 none
      = some "stale".toList ∧
    getSoundcloudTokenM (some ⟨some "stale".toList, some "rt".toList, some 100⟩) 200 none
      ≠ none := by
  refine ⟨by decide, by decide⟩

/-- C3 (amended): for a stored record whose expiry has passed and whose
refresh call fails, `get_spotify_token` returns no token (auth required), but
`get_soundcloud_token` falls back to returning the stale stored access
token. -/
theorem claim_C3_refresh_failure_spotify_only (r : TokenRec) (now : ℚ)
    (a rt : List Char) (e : ℚ)
    (ha : r.access = some a) (he : r.expiresAt = some e) (hexp : e ≤ now)
    (hrt : r.refresh = some rt) :
    getSpotifyTokenM (some r) now none = none ∧
    getSoundcloudTokenM (some r) now none = some a := by
  obtain ⟨acc, ref, exp⟩ := r
  have ha2 : acc = some a := ha
  have he2 : exp = some e := he
  have hrt2 : ref = some rt := hrt
  subst ha2
  subst he2
  subst hrt2
  have hlt : ¬ now < e := not_lt.mpr hexp
  exact ⟨by simp [getSpotifyTokenM, hlt], by simp [getSoundcloudTokenM, hlt]⟩

/-- C3 witness: a concrete expired record with a failed refresh. -/
theorem claim_C3_refresh_failure_witness :
    ((⟨some "s".toList, some "rt".toList, some 100⟩ : TokenRec).access = some "s".toList ∧
     (⟨some "s".toList, some "rt".toList, some 100⟩ : TokenRec).expiresAt = some 100 ∧
     (100 : ℚ) ≤ 200 ∧
     (⟨some "s".toList, some "rt".toList, some 100⟩ : TokenRec).refresh = some "rt".toList) ∧
    (getSpotifyTokenM (some ⟨some "s".toList, some "rt".toList, some 100⟩) 200 none = none ∧
     getSoundcloudTokenM (some ⟨some "s".toList, some "rt".toList, some 100⟩) 200 none
       = some "s".toList) :=
  ⟨⟨rfl, rfl, by norm_num, rfl⟩,
   claim_C3_refresh_failure_spotify_only ⟨some "s".toList, some "rt".toList, some 100⟩
     200 "s".toList "rt".toList 100 rfl rfl (by norm_num) rfl⟩

/-! ### The rate limiter (rate_limiting.py)

Timestamps are rationals.  `pyInt` models Python `int()` (truncation toward
zero).  The defaultdict creates a bucket with zero burst tokens and
`last_refill` set to the creation instant; `can_make_request` mutates the
bucket (cleaning the windows, and in the burst branch refilling the tokens),
so it is embedded as returning the (allowed, wait) pair with the new bucket. -/

/-- Python `int()` on a float: truncation toward zero. -/
def pyInt (q : ℚ) : ℤ := if 0 ≤ q then Int.floor q else Int.ceil q

structure RateLimitCfg where
  requestsPerMinute : ℕ
  requestsPerHour : ℕ
  burstLimit : ℕ
deriving DecidableEq

/-- The RATE_LIMITS table of rate_limiting.py. -/
def RATE_LIMITS (p : String) : Option RateLimitCfg :=
  if p = "spotify" then some ⟨100, 1000, 10⟩
  else if p = "soundcloud" then some ⟨60, 500, 5⟩
  else none

structure Bucket where
  tokens : ℤ
  lastRefill : ℚ
  minuteRequests : List ℚ
  hourRequests : List ℚ

/-- The defaultdict initializer at creation instant `t`. -/
def initBucket (t : ℚ) : Bucket := ⟨0, t, [], []⟩

/-- `_clean_old_requests`: pop entries older than `maxAge` seconds from the
front of the (chronologically ordered) deque. -/
def cleanOldRequests (q : List ℚ) (maxAge now : ℚ) : List ℚ :=
  q.dropWhile (fun e => maxAge < now - e)

/-- `can_make_request` (rate_limiting.py lines 40–82).  `headD 0` stands for
`deque[0]`, which is only read when the window is at a positive capacity and
hence non-empty. -/
def canMakeRequest (platform : String) (b : Bucket) (now : ℚ) :
    (Bool × Option ℤ) × Bucket :=
  match RATE_LIMITS platform with
  | none => ((true, none), b)
  | some rl =>
    if rl.requestsPerMinute ≤ (cleanOldRequests b.minuteRequests 60 now).length then
      ((false, some (pyInt (60 - (now - (cleanOldRequests b.minuteRequests 60 now).headD 0) + 1))),
       ⟨b.tokens, b.lastRefill, cleanOldRequests b.minuteRequests 60 now,
        cleanOldRequests b.hourRequests 3600 now⟩)
    else if rl.requestsPerHour ≤ (cleanOldRequests b.hourRequests 3600 now).length then
      ((false, some (pyInt (3600 - (now - (cleanOldRequests b.hourRequests 3600 now).headD 0) + 1))),
       ⟨b.tokens, b.lastRefill, cleanOldRequests b.minuteRequests 60 now,
        cleanOldRequests b.hourRequests 3600 now⟩)
    else if min (rl.burstLimit : ℤ)
        (b.tokens + pyInt ((now - b.lastRefill) * rl.requestsPerMinute / 60)) < 1 then
      ((false, some 1),
       ⟨min (rl.burstLimit : ℤ)
          (b.tokens + pyInt ((now - b.lastRefill) * rl.requestsPerMinute / 60)), now,
        cleanOldRequests b.minuteRequests 60 now, cleanOldRequests b.hourRequests 3600 now⟩)
    else
      ((true, none),
       ⟨min (rl.burstLimit : ℤ)
          (b.tokens + pyInt ((now - b.lastRefill) * rl.requestsPerMinute / 60)), now,
        cleanOldRequests b.minuteRequests 60 now, cleanOldRequests b.hourRequests 3600 now⟩)

/-- `consume_request` (rate_limiting.py lines 84–92). -/
def consumeRequest (b : Bucket) (now : ℚ) : Bucket :=
  ⟨b.tokens - 1, b.lastRefill, b.minuteRequests ++ [now], b.hourRequests ++ [now]⟩

/-- The documented caller discipline: reserve with `can_make_request` and
consume only when allowed. -/
def limiterStep (platform : String) (b : Bucket) (now : ℚ) : Bucket :=
  if (canMakeRequest platform b now).1.1
  then consumeRequest (canMakeRequest platform b now).2 now
  else (canMakeRequest platform b now).2

def runLimiter (platform : String) (b : Bucket) (times : List ℚ) : Bucket :=
  times.foldl (limiterStep platform) b

lemma length_dropWhile_le {α : Type} (p : α → Bool) :
    ∀ l : List α, (l.dropWhile p).length ≤ l.length
  | [] => le_refl 0
  | a :: l => by
    by_cases h : p a
    · rw [List.dropWhile_cons_of_pos h]
      exact le_trans (length_dropWhile_le p l) (Nat.le_succ _)
    · rw [List.dropWhile_cons_of_neg h]

lemma dropWhile_head_false {α : Type} (p : α → Bool) :
    ∀ {l : List α} {c : α} {rest : List α}, l.dropWhile p = c :: rest → p c = false
  | [], c, rest, h => by cases h
  | a :: l, c, rest, h => by
    by_cases ha : p a
    · rw [List.dropWhile_cons_of_pos ha] at h
      exact dropWhile_head_false p h
    · rw [List.dropWhile_cons_of_neg ha] at h
      cases h
      simpa using ha

lemma canMakeRequest_bucket (platform : String) (rl : RateLimitCfg)
    (hcfg : RATE_LIMITS platform = some rl) (b : Bucket) (now : ℚ) :
    ((canMakeRequest platform b now).2.minuteRequests
        = cleanOldRequests b.minuteRequests 60 now ∧
     (canMakeRequest platform b now).2.hourRequests
        = cleanOldRequests b.hourRequests 3600 now) ∧
    ((canMakeRequest platform b now).1.1 = true →
      (cleanOldRequests b.minuteRequests 60 now).length < rl.requestsPerMinute ∧
      (cleanOldRequests b.hourRequests 3600 now).length < rl.requestsPerHour) := by
  unfold canMakeRequest
  rw [hcfg]
  dsimp only
  split_ifs with hA hB hC <;> simp_all

lemma limiterStep_window_le (platform : String) (rl : RateLimitCfg)
    (hcfg : RATE_LIMITS platform = some rl) (b : Bucket) (now : ℚ)
    (h1 : b.minuteRequests.length ≤ rl.requestsPerMinute)
    (h2 : b.hourRequests.length ≤ rl.requestsPerHour) :
    (limiterStep platform b now).minuteRequests.length ≤ rl.requestsPerMinute ∧
    (limiterStep platform b now).hourRequests.length ≤ rl.requestsPerHour := by
  have hmle : (cleanOldRequests b.minuteRequests 60 now).length ≤ rl.requestsPerMinute :=
    le_trans (length_dropWhile_le _ _) h1
  have hhle : (cleanOldRequests b.hourRequests 3600 now).length ≤ rl.requestsPerHour :=
    le_trans (length_dropWhile_le _ _) h2
  have hk := canMakeRequest_bucket platform rl hcfg b now
  unfold limiterStep
  by_cases hall : (canMakeRequest platform b now).1.1 = true
  · rw [if_pos hall]
    have hlt := hk.2 hall
    constructor
    · show ((canMakeRequest platform b now).2.minuteRequests ++ [now]).length ≤ _
      rw [hk.1.1]
      simp
      omega
    · show ((canMakeRequest platform b now).2.hourRequests ++ [now]).length ≤ _
      rw [hk.1.2]
      simp
      omega
  · rw [if_neg hall]
    rw [hk.1.1, hk.1.2]
    exact ⟨hmle, hhle⟩

lemma runLimiter_window_le (platform : String) (rl : RateLimitCfg)
    (hcfg : RATE_LIMITS platform = some rl) :
    ∀ (times : List ℚ) (b : Bucket),
      b.minuteRequests.length ≤ rl.requestsPerMinute →
      b.hourRequests.length ≤ rl.requestsPerHour →
      (runLimiter platform b times).minuteRequests.length ≤ rl.requestsPerMinute ∧
      (runLimiter platform b times).hourRequests.length ≤ rl.requestsPerHour
  | [], b, h1, h2 => ⟨h1, h2⟩
  | t :: ts, b, h1, h2 => by
    have hs := limiterStep_window_le platform rl hcfg b t h1 h2
    exact runLimiter_window_le platform rl hcfg ts (limiterStep platform b t) hs.1 hs.2

/-- C7: (denial at capacity) whenever the cleaned minute window of a bucket
already holds at least the configured per-minute quota of requests, the next
reservation check is denied with a wait of at least one second; and (window
ceiling) under the reserve-then-consume discipline, starting from a fresh
bucket, the minute and hour windows never hold more timestamps than the
configured per-minute and per-hour ceilings. -/
theorem claim_C7_window_denial_and_ceiling (platform : String) (rl : RateLimitCfg)
    (b : Bucket) (now : ℚ) (times : List ℚ) (t0 : ℚ)
    (hcfg : RATE_LIMITS platform = some rl) (hpos : 1 ≤ rl.requestsPerMinute) :
    ((rl.requestsPerMinute ≤ (cleanOldRequests b.minuteRequests 60 now).length →
       ∃ w, (canMakeRequest platform b now).1 = (false, some w) ∧ 1 ≤ w)) ∧
    (runLimiter platform (initBucket t0) times).minuteRequests.length ≤ rl.requestsPerMinute ∧
    (runLimiter platform (initBucket t0) times).hourRequests.length ≤ rl.requestsPerHour := by
  refine ⟨?_, (runLimiter_window_le platform rl hcfg times (initBucket t0)
      (by simp [initBucket]) (by simp [initBucket])).1,
    (runLimiter_window_le platform rl hcfg times (initBucket t0)
      (by simp [initBucket]) (by simp [initBucket])).2⟩
  intro hlen
  rcases hm : cleanOldRequests b.minuteRequests 60 now with _ | ⟨c, rest⟩
  · rw [hm] at hlen
    simp at hlen
    omega
  · have hc : ¬ (60 : ℚ) < now - c := by
      have := dropWhile_head_false (fun e => decide ((60 : ℚ) < now - e)) hm
      simpa using this
    refine ⟨pyInt (60 - (now - c) + 1), ?_, ?_⟩
    · show (canMakeRequest platform b now).1 = _
      unfold canMakeRequest
      rw [hcfg]
      dsimp only
      rw [if_pos hlen, hm]
      simp
    · have hq : (1 : ℚ) ≤ 60 - (now - c) + 1 := by linarith [not_lt.mp hc]
      have hq0 : (0 : ℚ) ≤ 60 - (now - c) + 1 := by linarith
      rw [pyInt, if_pos hq0]
      exact Int.le_floor.mpr (by exact_mod_cast hq)

lemma dropWhile_eq_self_of_false {α : Type} (p : α → Bool) :
    ∀ l : List α, (∀ x ∈ l, p x = false) → l.dropWhile p = l
  | [], _ => rfl
  | a :: l, h => by
    rw [List.dropWhile_cons_of_neg (by simp [h a (by simp)])]

lemma clean_replicate_zero :
    cleanOldRequests (List.replicate 100 (0 : ℚ)) 60 0 = List.replicate 100 (0 : ℚ) := by
  apply dropWhile_eq_self_of_false
  intro x hx
  have hx0 : x = 0 := List.eq_of_mem_replicate hx
  subst hx0
  simp [decide_eq_false_iff_not]

/-- C7 witness: the spotify window at its quota of 100 requests. -/
theorem claim_C7_window_denial_witness :
    (RATE_LIMITS "spotify" = some ⟨100, 1000, 10⟩ ∧ 1 ≤ (100 : ℕ) ∧
     (100 : ℕ) ≤ (cleanOldRequests (List.replicate 100 (0 : ℚ)) 60 0).length) ∧
    ∃ w, (canMakeRequest "spotify" ⟨0, 0, List.replicate 100 (0 : ℚ), []⟩ 0).1
        = (false, some w) ∧ 1 ≤ w :=
  ⟨⟨by simp [RATE_LIMITS], by norm_num, by rw [clean_replicate_zero]; simp⟩,
   (claim_C7_window_denial_and_ceiling "spotify" ⟨100, 1000, 10⟩
      ⟨0, 0, List.replicate 100 (0 : ℚ), []⟩ 0 [] 0 (by simp [RATE_LIMITS]) (by norm_num)).1
     (by rw [clean_replicate_zero]; simp)⟩

/-- C10: a fresh bucket is created by the defaultdict with zero burst tokens
and `last_refill` equal to the creation instant, so with any configured limit
the very first reservation check (which happens at that same instant) is
denied with a one-second wait; and a later check on the otherwise untouched
fresh bucket is allowed exactly when at least one token-worth of refill time,
60 / per-minute-limit seconds, has elapsed since creation. -/
theorem claim_C10_fresh_bucket_first_check_denied (platform : String)
    (rl : RateLimitCfg) (t0 t : ℚ) (hcfg : RATE_LIMITS platform = some rl)
    (hm : 1 ≤ rl.requestsPerMinute) (hh : 1 ≤ rl.requestsPerHour)
    (hb : 1 ≤ rl.burstLimit) (hle : t0 ≤ t) :
    (canMakeRequest platform (initBucket t0) t0).1 = (false, some 1) ∧
    ((canMakeRequest platform (initBucket t0) t).1.1 = true ↔
      (60 : ℚ) / rl.requestsPerMinute ≤ t - t0) := by
  have hN : (0 : ℚ) < (rl.requestsPerMinute : ℚ) := by
    have h0 : 0 < rl.requestsPerMinute := lt_of_lt_of_le one_pos hm
    exact_mod_cast h0
  have e : ∀ s : ℚ, (canMakeRequest platform (initBucket t0) s).1
      = if min (rl.burstLimit : ℤ) (0 + pyInt ((s - t0) * rl.requestsPerMinute / 60)) < 1
        then (false, some 1) else (true, none) := by
    intro s
    have hc1 : ¬ (rl.requestsPerMinute
        ≤ (cleanOldRequests (initBucket t0).minuteRequests 60 s).length) := by
      simp [initBucket, cleanOldRequests]
      omega
    have hc2 : ¬ (rl.requestsPerHour
        ≤ (cleanOldRequests (initBucket t0).hourRequests 3600 s).length) := by
      simp [initBucket, cleanOldRequests]
      omega
    unfold canMakeRequest
    rw [hcfg]
    dsimp only
    rw [if_neg hc1, if_neg hc2]
    simp only [initBucket]
    split_ifs <;> rfl
  constructor
  · rw [e t0]
    have h0 : (0 : ℤ) + pyInt ((t0 - t0) * rl.requestsPerMinute / 60) = 0 := by
      simp [pyInt]
    rw [h0]
    have hmin : min (rl.burstLimit : ℤ) 0 < 1 := by
      have := min_le_right (rl.burstLimit : ℤ) 0
      omega
    rw [if_pos hmin]
  · have hq0 : (0 : ℚ) ≤ (t - t0) * rl.requestsPerMinute / 60 := by
      have h1 : (0 : ℚ) ≤ t - t0 := sub_nonneg.mpr hle
      have h2 : (0 : ℚ) ≤ (t - t0) * rl.requestsPerMinute :=
        mul_nonneg h1 (le_of_lt hN)
      exact div_nonneg h2 (by norm_num)
    have hiff : ¬ (min (rl.burstLimit : ℤ)
          (0 + pyInt ((t - t0) * rl.requestsPerMinute / 60)) < 1)
        ↔ (60 : ℚ) / rl.requestsPerMinute ≤ t - t0 := by
      rw [not_lt, zero_add, pyInt, if_pos hq0, le_min_iff]
      have hbz : (1 : ℤ) ≤ (rl.burstLimit : ℤ) := by exact_mod_cast hb
      constructor
      · rintro ⟨-, h2⟩
        have h3 : (1 : ℚ) ≤ (t - t0) * rl.requestsPerMinute / 60 := by
          exact_mod_cast Int.le_floor.mp h2
        rw [div_le_iff₀ hN]
        have h4 : (1 : ℚ) * 60 ≤ (t - t0) * rl.requestsPerMinute :=
          (le_div_iff₀ (by norm_num : (0 : ℚ) < 60)).mp h3
        linarith
      · intro h
        refine ⟨hbz, Int.le_floor.mpr ?_⟩
        have h4 : (60 : ℚ) ≤ (t - t0) * rl.requestsPerMinute := by
          have := (div_le_iff₀ hN).mp h
          linarith
        push_cast
        rw [le_div_iff₀ (by norm_num : (0 : ℚ) < 60)]
        linarith
    rw [e t]
    by_cases hcond : min (rl.burstLimit : ℤ)
        (0 + pyInt ((t - t0) * rl.requestsPerMinute / 60)) < 1
    · rw [if_pos hcond]
      constructor
      · intro hfalse
        exact absurd hfalse (by simp)
      · intro h
        exact absurd hcond (hiff.mpr h)
    · rw [if_neg hcond]
      exact ⟨fun _ => hiff.mp hcond, fun _ => rfl⟩

/-- C10 witness: the fresh spotify bucket at creation instant 0. -/
theorem claim_C10_fresh_bucket_witness :
    (RATE_LIMITS "spotify" = some ⟨100, 1000, 10⟩ ∧ 1 ≤ (100 : ℕ) ∧
     1 ≤ (1000 : ℕ) ∧ 1 ≤ (10 : ℕ) ∧ (0 : ℚ) ≤ 0) ∧
    (canMakeRequest "spotify" (initBucket 0) 0).1 = (false, some 1) :=
  ⟨⟨by simp [RATE_LIMITS], by norm_num, by norm_num, by norm_num, le_refl 0⟩,
   (claim_C10_fresh_bucket_first_check_denied "spotify" ⟨100, 1000, 10⟩ 0 0
      (by simp [RATE_LIMITS]) (by norm_num) (by norm_num) (by norm_num)
      (le_refl 0)).1⟩

/-! ### Progress reporting and the batch orchestrator (main.py)

`set_progress` clamps the percent into [0, 100].  The search-phase callback of
`run_spotify_to_soundcloud_async` writes `20 + int((done / max(1, total)) * 60)`
where `done` is `index + 1` for the track at `index` — the position of the
track in the playlist, not a shared completed count.  The per-track searches
run under a 5-way semaphore, so the callback invocations arrive in an
arbitrary permutation of the track indices. -/

/-- The percent computed by `progress_callback` (main.py lines 137–139). -/
def progressPct (done total : ℕ) : ℤ :=
  20 + pyInt ((done : ℚ) / ((max 1 total : ℕ) : ℚ) * 60)

/-- The clamp in `set_progress` (main.py lines 47–51). -/
def setProgressPct (p : ℤ) : ℤ := max 0 (min 100 p)

/-- The percents written during the search phase when the per-track
resolutions complete in the order given by `order`. -/
def searchPhasePercents (order : List ℕ) (total : ℕ) : List ℤ :=
  order.map (fun i => setProgressPct (progressPct (i + 1) total))

inductive RunMsg where
  | checkingAuth
  | spotifyAuthRequired
  | soundcloudAuthRequired
  | fetchingPlaylist
  | fetchFailed
  | foundTracks (n : ℕ)
  | startingSearch
  | searched (done total : ℕ)
  | noMatches
  | creatingPlaylist
  | addingTracks
  | transferCompleted
  | partialAdd
  | createFailed
  | emptyCreated
deriving DecidableEq

structure RunEnv where
  spotifyToken : Option (List Char)
  soundcloudToken : Option (List Char)
  playlist : Option (List (List Char × List Char))
  completionOrder : List ℕ
  searchResults : List (Option Match)
  createStatus : ℤ
  playlistIdPresent : Bool
  addStatus : ℤ

/-- `run_spotify_to_soundcloud_async` (main.py lines 82–292) as the ordered
list of `set_progress` writes together with the number of per-track
destination search invocations the run makes.  The environment carries the
token lookups, the playlist fetch outcome, the order in which the concurrent
per-track resolutions complete, their results, and the HTTP statuses of the
playlist-creation and track-attachment calls. -/
def runModelM (env : RunEnv) : List (ℤ × RunMsg) × ℕ :=
  match env.spotifyToken with
  | none => ([(5, RunMsg.checkingAuth), (100, RunMsg.spotifyAuthRequired)], 0)
  | some _ =>
    match env.soundcloudToken with
    | none => ([(5, RunMsg.checkingAuth), (100, RunMsg.soundcloudAuthRequired)], 0)
    | some _ =>
      match env.playlist with
      | none => ([(5, RunMsg.checkingAuth), (10, RunMsg.fetchingPlaylist),
          (100, RunMsg.fetchFailed)], 0)
      | some trackList =>
        let n := trackList.length
        let searchProg := env.completionOrder.map
          (fun i => (setProgressPct (progressPct (i + 1) n), RunMsg.searched (i + 1) n))
        let pre := [(5, RunMsg.checkingAuth), (10, RunMsg.fetchingPlaylist),
          (20, RunMsg.foundTracks n), (25, RunMsg.startingSearch)] ++ searchProg
        if (env.searchResults.filterMap id).isEmpty then
          (pre ++ [(100, RunMsg.noMatches)], n)
        else if env.createStatus = 200 ∨ env.createStatus = 201 then
          if env.playlistIdPresent then
            if env.addStatus = 200 ∨ env.addStatus = 201 then
              (pre ++ [(85, RunMsg.creatingPlaylist), (90, RunMsg.addingTracks),
                (100, RunMsg.transferCompleted)], n)
            else
              (pre ++ [(85, RunMsg.creatingPlaylist), (90, RunMsg.addingTracks),
                (100, RunMsg.partialAdd)], n)
          else
            (pre ++ [(85, RunMsg.creatingPlaylist), (100, RunMsg.emptyCreated)], n)
        else (pre ++ [(85, RunMsg.creatingPlaylist), (100, RunMsg.createFailed)], n)

/-- C1: the search-phase percent is computed from the index of the completing track
plus one, not from a shared completed count, so out-of-order completion
writes a lower percent after a higher one.  With two tracks, completing the
track at index 1 first writes percent 80 and then percent 50, a decreasing
pair, although [1, 0] is a lawful completion order under the 5-way
concurrency: the percent sequence is not monotonically non-decreasing. -/
theorem claim_C1_progress_not_monotone :
    [1, 0].Perm [0, 1] ∧
    searchPhasePercents [1, 0] 2 = [80, 50] ∧
    ¬ List.Chain' (· ≤ ·) (searchPhasePercents [1, 0] 2) := by
  have h1 : searchPhasePercents [1, 0] 2 = [80, 50] := by
    unfold searchPhasePercents progressPct setProgressPct pyInt
    simp only [List.map_cons, List.map_nil]
    norm_num
  exact ⟨by decide, h1, by rw [h1]; simp [List.chain'_cons]⟩

/-- C9: when either platform token is absent or unusable at job start, the
run writes the auth-check progress and immediately terminates at 100% with
the corresponding auth-required message, performing zero destination search
invocations (the Spotify token is checked first). -/
theorem claim_C9_missing_token_terminates_at_100 (env : RunEnv) :
    (env.spotifyToken = none →
      runModelM env
        = ([(5, RunMsg.checkingAuth), (100, RunMsg.spotifyAuthRequired)], 0)) ∧
    (env.spotifyToken ≠ none → env.soundcloudToken = none →
      runModelM env
        = ([(5, RunMsg.checkingAuth), (100, RunMsg.soundcloudAuthRequired)], 0)) := by
  obtain ⟨sp, sc, pl, ord, res, cs, pid, ad⟩ := env
  constructor
  · intro h
    have h2 : sp = none := h
    subst h2
    rfl
  · intro h1 h2
    have h3 : sc = none := h2
    subst h3
    cases sp with
    | none => exact absurd rfl h1
    | some t => rfl

/-- C9 witness: the run with no tokens at all. -/
theorem claim_C9_missing_token_witness :
    ((⟨none, none, none, [], [], 0, false, 0⟩ : RunEnv).spotifyToken = none) ∧
    runModelM ⟨none, none, none, [], [], 0, false, 0⟩
      = ([(5, RunMsg.checkingAuth), (100, RunMsg.spotifyAuthRequired)], 0) :=
  ⟨rfl,
   (claim_C9_missing_token_terminates_at_100
      ⟨none, none, none, [], [], 0, false, 0⟩).1 rfl⟩

end TransferPlaylist
